import Mathlib

/-
Verification development for the ConvertTEMPLATE repository.

The repository converts behavioral-task log files into a standardized
container format.  The parsing core lives in conv/parser.py; the
conversion driver in scripts/convert_data.py; the batch driver in
scripts/run_all_conversion.py.  Lines and strings are embedded as
List Char, file contents as the list of lines produced by Python
readlines, and raised Python exceptions as Except.error values.
-/

/-- Python str.split on the tab character: splits a character list at every
tab, keeping empty fields, and always returns at least one field. -/
def splitTab : List Char → List (List Char)
  | [] => [[]]
  | c :: cs =>
      if c = '\t' then [] :: splitTab cs
      else (splitTab cs).modifyHead (fun t => c :: t)

/-- Helper for readlines: accumulates the current line in reverse. -/
def readlinesAux : List Char → List Char → List (List Char)
  | [], acc => if acc.isEmpty then [] else [acc.reverse]
  | c :: cs, acc =>
      if c = '\n' then (acc.reverse ++ ['\n']) :: readlinesAux cs []
      else readlinesAux cs (c :: acc)

/-- Python file readlines: splits file contents after every newline; every
line keeps its trailing newline, and a last line without one is kept too. -/
def readlines (contents : List Char) : List (List Char) :=
  readlinesAux contents []

/-- The per-line tokenization shared by parse_lines_log (parser.py lines
82-83) and parse_lines_sync (parser.py lines 129-130): remove every
carriage-return character, drop the final character of what remains
(Python line[:-1]), and split on tabs. -/
def tokenize (line : List Char) : List (List Char) :=
  splitTab (List.dropLast (line.filter (fun c => c != '\r')))

/-- Modelled from the spec: the session sub-map of the TaskRecord container
(conv/task.py is not under src/), holding the session start and end
timestamps captured from the first and last log line. -/
structure TaskSession where
  start_time : List Char := []
  end_time : List Char := []
  deriving DecidableEq

/-- Modelled from the spec: the continuous position stream of the TaskRecord
container, with x, z and time arrays. -/
structure TaskPosition where
  x : List (List Char) := []
  z : List (List Char) := []
  time : List (List Char) := []
  deriving DecidableEq

/-- Modelled from the spec: the synchronization stream of the TaskRecord
container, with time, frame and on_off arrays. -/
structure TaskSync where
  time : List (List Char) := []
  frame : List (List Char) := []
  on_off : List (List Char) := []
  deriving DecidableEq

/-- Modelled from the spec: the Task container class of conv/task.py, which
is not under src/, restricted to the sub-maps the parser code touches:
session metadata, the position stream, and the sync stream.  A fresh
record starts with all of them empty.  Named TaskRecord here because Lean
already declares Task. -/
structure TaskRecord where
  session : TaskSession := {}
  position : TaskPosition := {}
  sync_behavioral : TaskSync := {}
  deriving DecidableEq

/-- The event-name string THINGS that the placeholder dispatch in
parse_lines_log compares the event field against (parser.py lines 97, 101). -/
def thingsChars : List Char := "THINGS".toList

/-- The diagnostic printed by parse_lines_log for a short line
(parser.py line 87). -/
def unexpectedLineMsg (ix : Nat) : List Char :=
  "Unexpected line length at line ".toList ++ (Nat.repr ix).toList

/-- The main loop of parse_lines_log (parser.py lines 79-102): enumerate
lines, tokenize each, print a diagnostic and continue when fewer than four
tokens are present, otherwise bind time, frame, event and subevent and
dispatch on the event field.  Both dispatch targets compare against THINGS
and have ellipsis placeholder bodies, so neither branch changes the task. -/
def logLoop : Nat → List (List Char) → TaskRecord → List (List Char) → TaskRecord × List (List Char)
  | _, [], task, printed => (task, printed)
  | ix, line :: rest, task, printed =>
      let tokens := tokenize line
      if tokens.length ≤ 3 then
        logLoop (ix + 1) rest task (printed ++ [unexpectedLineMsg ix])
      else
        let event := tokens.getD 2 []
        let task2 := if event = thingsChars then task else task
        logLoop (ix + 1) rest task2 printed

/-- Embedding of parse_lines_log (parser.py lines 42-105) on the lines of
the file.  The source guard at line 57 reads if not Task, which tests the
truthiness of the Task class itself (always truthy), so no record is ever
created for a missing argument; with task=None the assignment at line 72
then raises AttributeError, and with an empty file the indexing lines[0]
at line 72 raises IndexError first.  On success the session start and end
times are set from the first tab field of the raw first and last lines,
and the loop runs over every line; the printed diagnostics are returned
alongside the task. -/
def parse_lines_log (lines : List (List Char)) (task : Option TaskRecord) :
    Except String (TaskRecord × List (List Char)) :=
  match lines with
  | [] => Except.error "IndexError: list index out of range"
  | first :: _ =>
      match task with
      | none => Except.error "AttributeError: NoneType object has no attribute session"
      | some t0 =>
          let t1 : TaskRecord :=
            { t0 with session :=
                { start_time := (splitTab first).headI,
                  end_time := (splitTab (lines.getLastD [])).headI } }
          Except.ok (logLoop 0 lines t1 [])

/-- One iteration of the parse_lines_sync loop (parser.py lines 127-135):
tokenize the line and append tokens 0, 1 and 2 to the time, frame and
on_off sync streams; a line with fewer than three tokens raises IndexError. -/
def syncLineStep (task : TaskRecord) (line : List Char) : Except String TaskRecord :=
  match tokenize line with
  | tokTime :: tokFrame :: tokOnOff :: _ =>
      Except.ok { task with sync_behavioral :=
        { time := task.sync_behavioral.time ++ [tokTime],
          frame := task.sync_behavioral.frame ++ [tokFrame],
          on_off := task.sync_behavioral.on_off ++ [tokOnOff] } }
  | _ => Except.error "IndexError: list index out of range"

/-- Embedding of parse_lines_sync (parser.py lines 108-137).  The guard at
line 123 again reads if not Task and never creates a record, so with
task=None a nonempty file raises AttributeError at the first append, while
an empty file returns the None argument unchanged. -/
def parse_lines_sync (lines : List (List Char)) (task : Option TaskRecord) :
    Except String (Option TaskRecord) :=
  match lines with
  | [] => Except.ok task
  | _ =>
      match task with
      | none => Except.error "AttributeError: NoneType object has no attribute sync_behavioral"
      | some t0 => Except.map some (lines.foldlM syncLineStep t0)

/-- Embedding of process_session (parser.py lines 11-39).  Its first
statement, if task is None, reads the local variable task, which Python
treats as local because of the assignment task = parse_lines_log at line
32; reading it before that assignment raises UnboundLocalError on every
call.  The later calls in the body also use the undefined names file_path
and verbose, but execution never reaches them. -/
def process_session (file_path_log : List Char) (process : Bool) : Except String TaskRecord :=
  Except.error "UnboundLocalError: local variable task referenced before assignment"

/-- The settings mapping of the scripts, restricted to the flags the
embedded control flow reads. -/
structure Settings where
  VERBOSE : Bool := false
  ADD_LFP : Bool := false
  CHANGE_TIME_UNIT : Bool := false
  RESET_TIME : Bool := false
  DROP_BEFORE_TASK : Bool := false
  SKIP_ALREADY_RUN : Bool := false
  deriving DecidableEq

/-- The SESSION mapping passed through the scripts: subject, experiment
and session identifiers. -/
structure SessionId where
  SUBJECT : List Char
  EXPERIMENT : List Char
  SESSION : List Char
  deriving DecidableEq

/-- Modelled from the spec: make_session_name (conv/io.py is not under
src/), the deterministic session-name function combining subject,
experiment and session. -/
def make_session_name (subject experiment session : List Char) : List Char :=
  subject ++ experiment ++ session

/-- The on-disk inputs convert_data loads for one session: the task
record (None models a failed or falsy load), the truthiness of the loaded
metadata, and the discovered spike and LFP file lists. -/
structure SessionFiles where
  task_obj : Option TaskRecord
  metadata_ok : Bool
  spike_files : List (List Char)
  lfp_files : List (List Char)
  deriving DecidableEq

/-- The file suffix of converted output files. -/
def nwbSuffix : List Char := ".nwb".toList

/-- Embedding of the precondition phase of convert_data
(scripts/convert_data.py lines 24-57): assert task, assert metadata,
assert len(spike_files), and, when ADD_LFP is set, assert lfp_files, in
that order; a failed assert raises AssertionError before any output
exists.  The remainder of the function is modelled from the spec: it
populates the external container and serializes one output file named by
make_session_name, which the embedding returns on success. -/
def convert_data (sid : SessionId) (files : SessionFiles) (settings : Settings) :
    Except String (List Char) :=
  let session_name := make_session_name sid.SUBJECT sid.EXPERIMENT sid.SESSION
  match files.task_obj with
  | none => Except.error "AssertionError"
  | some _ =>
      if files.metadata_ok = false then Except.error "AssertionError"
      else if files.spike_files.length = 0 then Except.error "AssertionError"
      else if settings.ADD_LFP = true ∧ files.lfp_files = [] then Except.error "AssertionError"
      else Except.ok (session_name ++ nwbSuffix)

/-- The sequential execution of the batch loop body
(scripts/run_all_conversion.py lines 61-65) over the selected sessions:
prepare_data (its module is not under src/; modelled from the spec as a
per-session preparation step with no value-level effect here) followed by
convert_data, with no try/except around either call, so the first error
aborts the whole fold. -/
def run_batch (settings : Settings) (jobs : List (SessionId × SessionFiles)) :
    Except String (List (List Char)) :=
  jobs.foldlM
    (fun outs job => Except.map (fun out => outs ++ [out]) (convert_data job.1 job.2 settings))
    []

/-- The per-session skip checks of the batch loop
(scripts/run_all_conversion.py lines 52-59): skip when the session name is
in the skip-sessions list, or when SKIP_ALREADY_RUN is set and the session
output name is among the converted files. -/
def session_run_check (experiment : List Char) (converted skip_sessions : List (List Char))
    (skip_already_run : Bool) (subject session : List Char) : Bool :=
  let session_name := make_session_name subject experiment session
  if session_name ∈ skip_sessions then false
  else if skip_already_run = true ∧ session_name ++ nwbSuffix ∈ converted then false
  else true

/-- Embedding of the selection logic of run_all_conversions
(scripts/run_all_conversion.py lines 37-65): iterate the enumerated
subject-to-sessions mapping, skip subjects in the skip-subjects list, skip
sessions failing session_run_check, and collect, in order, the
(subject, session) pairs for which the prepare plus convert pipeline is
invoked. -/
def run_all_conversions (experiment : List Char)
    (all_sessions : List (List Char × List (List Char)))
    (converted skip_subjects skip_sessions : List (List Char))
    (settings : Settings) : List (List Char × List Char) :=
  all_sessions.flatMap (fun p =>
    if p.1 ∈ skip_subjects then []
    else (p.2.filter
        (session_run_check experiment converted skip_sessions settings.SKIP_ALREADY_RUN p.1)).map
      (fun session => (p.1, session)))

/-- A well-formed log line in the sense of the claims: terminated by a
newline, with no interior newline and no carriage return, and carrying at
least four tab-separated fields. -/
def WellFormedLogLine (l : List Char) : Prop :=
  l.getLast? = some '\n' ∧ '\n' ∉ l.dropLast ∧ '\r' ∉ l ∧ 4 ≤ (splitTab l.dropLast).length

instance : DecidablePred WellFormedLogLine := fun l => by
  unfold WellFormedLogLine; infer_instance

/-- The first tab-separated field of a line, after removing the line
terminator: the claims refer to this as the timestamp field of a line. -/
def specFirstField (l : List Char) : List Char :=
  (splitTab l.dropLast).headI

/-- The list of diagnostics the main parser loop prints, starting from a
given line index: one message per line with fewer than four tokens. -/
def badMessages : Nat → List (List Char) → List (List Char)
  | _, [] => []
  | ix, line :: rest =>
      if (tokenize line).length ≤ 3 then unexpectedLineMsg ix :: badMessages (ix + 1) rest
      else badMessages (ix + 1) rest

/-- The two-line position-event example log from the spec. -/
def exampleLog : List Char :=
  "0\t1\tPOSITION\t0\t1.0\t2.0\n100\t2\tPOSITION\t0\t1.5\t2.5\n".toList

/-- A two-line example sync file. -/
def exampleSync : List Char :=
  "10\t1\t1\n20\t2\t0\n".toList

/-- A three-line log whose middle line has fewer than four fields. -/
def exampleLogWithBadLine : List Char :=
  "0\t1\tA\t0\nbad\n100\t2\tB\t0\n".toList

/-- Appending one non-tab character to a line appends it to the last field
of the tab split. -/
theorem splitTab_append_singleton (l : List Char) (c : Char) (hc : c ≠ '\t') :
    ∃ S f, splitTab l = S ++ [f] ∧ splitTab (l ++ [c]) = S ++ [f ++ [c]] := by
  induction l with
  | nil => exact ⟨[], [], rfl, by simp [splitTab, hc]⟩
  | cons a l ih =>
      obtain ⟨S, f, h1, h2⟩ := ih
      by_cases ha : a = '\t'
      · subst ha
        exact ⟨[] :: S, f, by simp [splitTab, h1], by simp [splitTab, h2]⟩
      · cases S with
        | nil =>
            refine ⟨[], a :: f, ?_, ?_⟩
            · simp [splitTab, ha, h1]
            · simp [splitTab, ha, h2]
        | cons s S =>
            refine ⟨(a :: s) :: S, f, ?_, ?_⟩
            · simp [splitTab, ha, h1]
            · simp [splitTab, ha, h2]

/-- The main parser loop never changes the task: the only event dispatch
targets are ellipsis placeholders. -/
theorem logLoop_fst (lines : List (List Char)) :
    ∀ ix t p, (logLoop ix lines t p).1 = t := by
  induction lines with
  | nil => intro ix t p; rfl
  | cons line rest ih =>
      intro ix t p
      by_cases h : (tokenize line).length ≤ 3 <;> simp [logLoop, h, ih]

/-- The diagnostics printed by the main parser loop are exactly one
message per line with fewer than four tokens. -/
theorem logLoop_snd (lines : List (List Char)) :
    ∀ ix t p, (logLoop ix lines t p).2 = p ++ badMessages ix lines := by
  induction lines with
  | nil => intro ix t p; simp [logLoop, badMessages]
  | cons line rest ih =>
      intro ix t p
      by_cases h : (tokenize line).length ≤ 3 <;> simp [logLoop, badMessages, h, ih]

/-- A malformed line at index ix contributes its diagnostic to the printed
messages. -/
theorem badMessages_mem (lines : List (List Char)) :
    ∀ start ix, ix < lines.length → (tokenize (lines.getD ix [])).length ≤ 3 →
      unexpectedLineMsg (start + ix) ∈ badMessages start lines := by
  induction lines with
  | nil => intro start ix h; simp at h
  | cons line rest ih =>
      intro start ix hix hbad
      cases ix with
      | zero =>
          simp only [List.getD_cons_zero] at hbad
          simp [badMessages, hbad]
      | succ n =>
          have hmem := ih (start + 1) n (by simpa using hix) (by simpa using hbad)
          have harith : start + (n + 1) = (start + 1) + n := by omega
          rw [harith]
          by_cases h : (tokenize line).length ≤ 3 <;> simp [badMessages, h, hmem]

/-- On a nonempty line list and a supplied task record, parse_lines_log
returns the record with the session times set from the raw first and last
lines, together with the malformed-line diagnostics. -/
theorem parse_lines_log_ok (first : List Char) (rest : List (List Char)) (t0 : TaskRecord) :
    parse_lines_log (first :: rest) (some t0) = Except.ok
      ({ t0 with session := { start_time := (splitTab first).headI,
                              end_time := (splitTab ((first :: rest).getLastD [])).headI } },
       badMessages 0 (first :: rest)) := by
  simp only [parse_lines_log]
  congr 1
  apply Prod.ext
  · exact logLoop_fst _ _ _ _
  · rw [logLoop_snd]; simp

/-- For a well-formed line, the first tab field of the raw line (with its
newline) is the first tab field of the line content. -/
theorem headI_splitTab_of_wf (l : List Char) (h : WellFormedLogLine l) :
    (splitTab l).headI = specFirstField l := by
  obtain ⟨h1, h2, h3, h4⟩ := h
  have hne : l ≠ [] := by rintro rfl; simp at h1
  have hlast : l.getLast hne = '\n' := by
    have hl := List.getLast?_eq_getLast l hne
    rw [h1] at hl
    exact (Option.some.injEq _ _ ▸ hl).symm
  have hdecomp : l.dropLast ++ ['\n'] = l := by
    conv_rhs => rw [← List.dropLast_append_getLast hne]
    rw [hlast]
  obtain ⟨S, f, hS1, hS2⟩ := splitTab_append_singleton l.dropLast '\n' (by decide)
  have hSne : S ≠ [] := by
    intro hSnil
    rw [hSnil] at hS1
    rw [hS1] at h4
    simp at h4
  unfold specFirstField
  conv_lhs => rw [← hdecomp]
  rw [hS2, hS1]
  cases S with
  | nil => exact absurd rfl hSne
  | cons s S => simp

/-- Claim C1: for every well-formed log file with at least one data line,
after parse_lines_log (given a task record) the session start_time equals
the first tab-separated field of the first line and the session end_time
equals the first tab-separated field of the last line, exactly. -/
theorem parse_lines_log_session_start_end (lines : List (List Char)) (t0 : TaskRecord)
    (hne : lines ≠ []) (hwf : ∀ l ∈ lines, WellFormedLogLine l) :
    ∃ printed, parse_lines_log lines (some t0) = Except.ok
      ({ t0 with session := { start_time := specFirstField lines.headI,
                              end_time := specFirstField (lines.getLastD []) } }, printed) := by
  obtain ⟨first, rest, rfl⟩ := List.exists_cons_of_ne_nil hne
  have hfirst : WellFormedLogLine first := hwf first (by simp)
  have hlastmem : (first :: rest).getLastD [] ∈ first :: rest := by
    rw [List.getLastD_cons]
    exact List.getLastD_mem_cons rest first
  have hlast : WellFormedLogLine ((first :: rest).getLastD []) := hwf _ hlastmem
  refine ⟨badMessages 0 (first :: rest), ?_⟩
  rw [parse_lines_log_ok, headI_splitTab_of_wf first hfirst, headI_splitTab_of_wf _ hlast]
  simp

/-- Witness for C1 on the two-line example log. -/
theorem parse_lines_log_session_start_end_witness :
    (readlines exampleLog ≠ [] ∧ ∀ l ∈ readlines exampleLog, WellFormedLogLine l) ∧
    ∃ printed, parse_lines_log (readlines exampleLog) (some {}) = Except.ok
      ({ session := { start_time := specFirstField (readlines exampleLog).headI,
                      end_time := specFirstField ((readlines exampleLog).getLastD []) } },
       printed) :=
  ⟨⟨by decide, by decide⟩,
   parse_lines_log_session_start_end (readlines exampleLog) {} (by decide) (by decide)⟩

/-- Claim C2: a line whose tab split yields fewer than four fields gets a
printed diagnostic, contributes nothing to the structured accumulation
(position and sync streams are untouched), raises nothing, and the run
continues over the remaining lines to a normal return. -/
theorem parse_lines_log_malformed_line (lines : List (List Char)) (t0 : TaskRecord)
    (ix : Nat) (hix : ix < lines.length)
    (hbad : (tokenize (lines.getD ix [])).length ≤ 3) :
    ∃ res, parse_lines_log lines (some t0) = Except.ok res ∧
      unexpectedLineMsg ix ∈ res.2 ∧
      res.1.position = t0.position ∧ res.1.sync_behavioral = t0.sync_behavioral := by
  have hne : lines ≠ [] := by rintro rfl; simp at hix
  obtain ⟨first, rest, rfl⟩ := List.exists_cons_of_ne_nil hne
  refine ⟨_, parse_lines_log_ok first rest t0, ?_, rfl, rfl⟩
  have hmem := badMessages_mem (first :: rest) 0 ix hix hbad
  simpa using hmem

/-- Witness for C2 on a log whose second line has a single field. -/
theorem parse_lines_log_malformed_line_witness :
    (1 < (readlines exampleLogWithBadLine).length ∧
     (tokenize ((readlines exampleLogWithBadLine).getD 1 [])).length ≤ 3) ∧
    ∃ res, parse_lines_log (readlines exampleLogWithBadLine) (some {}) = Except.ok res ∧
      unexpectedLineMsg 1 ∈ res.2 ∧
      res.1.position = ({} : TaskRecord).position ∧
      res.1.sync_behavioral = ({} : TaskRecord).sync_behavioral :=
  ⟨⟨by decide, by decide⟩,
   parse_lines_log_malformed_line (readlines exampleLogWithBadLine) {} 1 (by decide) (by decide)⟩

/-- Claim C3, counterexample: on an empty file the very first statement of
parse_lines_log indexes lines[0] and raises IndexError, so the function
does not return a task record for every input file. -/
theorem parse_lines_log_empty_file_raises :
    parse_lines_log (readlines []) (some {}) =
      Except.error "IndexError: list index out of range" := rfl

/-- Claim C3, amended: for every nonempty input file and a supplied task
record, parse_lines_log terminates normally and returns a task record
without raising, even when every line is malformed; an empty file (or a
missing task record) raises instead. -/
theorem parse_lines_log_ok_of_nonempty (lines : List (List Char)) (t0 : TaskRecord)
    (hne : lines ≠ []) :
    ∃ res, parse_lines_log lines (some t0) = Except.ok res := by
  obtain ⟨first, rest, rfl⟩ := List.exists_cons_of_ne_nil hne
  exact ⟨_, parse_lines_log_ok first rest t0⟩

/-- Witness for the amended C3 on a file consisting entirely of malformed
lines. -/
theorem parse_lines_log_ok_of_nonempty_witness :
    readlines "x\ny\n".toList ≠ [] ∧
    ∃ res, parse_lines_log (readlines "x\ny\n".toList) (some {}) = Except.ok res :=
  ⟨by decide, parse_lines_log_ok_of_nonempty (readlines "x\ny\n".toList) {} (by decide)⟩

/-- Claim C4, counterexample: on the spec's two-line position-event example
log the parser sets the session times to 0 and 100 but accumulates no
position samples at all, because the event dispatch bodies are ellipsis
placeholders; the claimed position stream of length two does not appear. -/
theorem parse_lines_log_position_example :
    Except.map (fun r => (r.1.session.start_time, r.1.session.end_time,
        r.1.position.x.length, r.1.position.z.length, r.1.position.time.length))
      (parse_lines_log (readlines exampleLog) (some {})) =
    Except.ok ("0".toList, "100".toList, 0, 0, 0) := rfl

/-- Claim C4, amended: for a log of well-formed position-event lines the
parser returns normally with the session times set from the first and last
lines, but the position stream is exactly the input record's (empty for a
fresh record): the per-event accumulation is an unimplemented placeholder. -/
theorem parse_lines_log_position_unchanged (lines : List (List Char)) (t0 : TaskRecord)
    (hne : lines ≠ []) (hwf : ∀ l ∈ lines, WellFormedLogLine l)
    (hpos : ∀ l ∈ lines, (tokenize l).getD 2 [] = "POSITION".toList) :
    ∃ res, parse_lines_log lines (some t0) = Except.ok res ∧
      res.1.position = t0.position ∧
      res.1.session.start_time = specFirstField lines.headI ∧
      res.1.session.end_time = specFirstField (lines.getLastD []) := by
  obtain ⟨first, rest, rfl⟩ := List.exists_cons_of_ne_nil hne
  have hfirst : WellFormedLogLine first := hwf first (by simp)
  have hlastmem : (first :: rest).getLastD [] ∈ first :: rest := by
    rw [List.getLastD_cons]
    exact List.getLastD_mem_cons rest first
  have hlast : WellFormedLogLine ((first :: rest).getLastD []) := hwf _ hlastmem
  refine ⟨_, parse_lines_log_ok first rest t0, rfl, ?_, ?_⟩
  · simpa using headI_splitTab_of_wf first hfirst
  · simpa using headI_splitTab_of_wf _ hlast

/-- Witness for the amended C4 on the example log. -/
theorem parse_lines_log_position_unchanged_witness :
    (readlines exampleLog ≠ [] ∧ (∀ l ∈ readlines exampleLog, WellFormedLogLine l) ∧
     ∀ l ∈ readlines exampleLog, (tokenize l).getD 2 [] = "POSITION".toList) ∧
    ∃ res, parse_lines_log (readlines exampleLog) (some {}) = Except.ok res ∧
      res.1.position = ({} : TaskRecord).position ∧
      res.1.session.start_time = specFirstField (readlines exampleLog).headI ∧
      res.1.session.end_time = specFirstField ((readlines exampleLog).getLastD []) :=
  ⟨⟨by decide, by decide, by decide⟩,
   parse_lines_log_position_unchanged (readlines exampleLog) {} (by decide) (by decide)
     (by decide)⟩

/-- Claim C5: evaluated at the failing input.  Calling either parser
without a pre-existing task record does not create one: the source guard
tests the truthiness of the Task class itself, so the None argument
reaches the first attribute access and raises AttributeError; no populated
record is ever returned, contradicting the docstrings of both functions. -/
theorem parse_with_none_task_raises :
    parse_lines_log (readlines exampleLog) none =
      Except.error "AttributeError: NoneType object has no attribute session" ∧
    parse_lines_sync (readlines exampleSync) none =
      Except.error "AttributeError: NoneType object has no attribute sync_behavioral" :=
  ⟨rfl, rfl⟩

/-- A list of length at least three starts with three elements. -/
theorem exists_three_of_le_length {α : Type} (L : List α) (h : 3 ≤ L.length) :
    ∃ a b c r, L = a :: b :: c :: r := by
  match L with
  | a :: b :: c :: r => exact ⟨a, b, c, r, rfl⟩
  | [] | [_] | [_, _] => simp at h

/-- The sync loop fold appends tokens 0, 1 and 2 of every line, in order,
to the three sync streams, and succeeds whenever every line has at least
three tokens. -/
theorem sync_foldlM (lines : List (List Char)) :
    ∀ t : TaskRecord, (∀ l ∈ lines, 3 ≤ (tokenize l).length) →
    lines.foldlM syncLineStep t = Except.ok
      { t with sync_behavioral :=
        { time := t.sync_behavioral.time ++ lines.map (fun l => (tokenize l).getD 0 []),
          frame := t.sync_behavioral.frame ++ lines.map (fun l => (tokenize l).getD 1 []),
          on_off := t.sync_behavioral.on_off ++ lines.map (fun l => (tokenize l).getD 2 []) } } := by
  induction lines with
  | nil => intro t h; simp only [List.map_nil, List.append_nil]; rfl
  | cons line rest ih =>
      intro t h
      obtain ⟨a, b, c, r, htok⟩ := exists_three_of_le_length _ (h line (by simp))
      have hstep : syncLineStep t line = Except.ok
          { t with sync_behavioral :=
            { time := t.sync_behavioral.time ++ [a],
              frame := t.sync_behavioral.frame ++ [b],
              on_off := t.sync_behavioral.on_off ++ [c] } } := by
        simp [syncLineStep, htok]
      rw [List.foldlM_cons, hstep]
      show (rest.foldlM syncLineStep _) = _
      rw [ih _ (fun l hl => h l (by simp [hl]))]
      simp [htok, List.append_assoc]

/-- Claim C6: for a well-formed sync file of M lines and a task record
with empty sync streams, parse_lines_sync appends one (time, frame,
on_off) triple per line in file order: each stream equals the list of the
corresponding token over the lines, so all three have length M and the
entries at every index come from the line at the same index. -/
theorem parse_lines_sync_streams (lines : List (List Char)) (t0 : TaskRecord)
    (h0 : t0.sync_behavioral = {}) (hwf : ∀ l ∈ lines, 3 ≤ (tokenize l).length) :
    ∃ t, parse_lines_sync lines (some t0) = Except.ok (some t) ∧
      t.sync_behavioral.time = lines.map (fun l => (tokenize l).getD 0 []) ∧
      t.sync_behavioral.frame = lines.map (fun l => (tokenize l).getD 1 []) ∧
      t.sync_behavioral.on_off = lines.map (fun l => (tokenize l).getD 2 []) ∧
      t.sync_behavioral.time.length = lines.length ∧
      t.sync_behavioral.frame.length = lines.length ∧
      t.sync_behavioral.on_off.length = lines.length := by
  cases lines with
  | nil =>
      refine ⟨t0, rfl, ?_, ?_, ?_, ?_, ?_, ?_⟩ <;> simp [h0]
  | cons line rest =>
      refine ⟨{ t0 with sync_behavioral :=
        { time := t0.sync_behavioral.time ++
            (line :: rest).map (fun l => (tokenize l).getD 0 []),
          frame := t0.sync_behavioral.frame ++
            (line :: rest).map (fun l => (tokenize l).getD 1 []),
          on_off := t0.sync_behavioral.on_off ++
            (line :: rest).map (fun l => (tokenize l).getD 2 []) } }, ?_, ?_, ?_, ?_, ?_, ?_, ?_⟩
      · show Except.map some ((line :: rest).foldlM syncLineStep t0) = _
        rw [sync_foldlM (line :: rest) t0 hwf]
        rfl
      all_goals simp [h0]

/-- Witness for C6 on the two-line example sync file. -/
theorem parse_lines_sync_streams_witness :
    (({} : TaskRecord).sync_behavioral = {} ∧
     ∀ l ∈ readlines exampleSync, 3 ≤ (tokenize l).length) ∧
    ∃ t, parse_lines_sync (readlines exampleSync) (some {}) = Except.ok (some t) ∧
      t.sync_behavioral.time = (readlines exampleSync).map (fun l => (tokenize l).getD 0 []) ∧
      t.sync_behavioral.frame = (readlines exampleSync).map (fun l => (tokenize l).getD 1 []) ∧
      t.sync_behavioral.on_off = (readlines exampleSync).map (fun l => (tokenize l).getD 2 []) ∧
      t.sync_behavioral.time.length = (readlines exampleSync).length ∧
      t.sync_behavioral.frame.length = (readlines exampleSync).length ∧
      t.sync_behavioral.on_off.length = (readlines exampleSync).length :=
  ⟨⟨rfl, by decide⟩, parse_lines_sync_streams (readlines exampleSync) {} rfl (by decide)⟩

/-- Claim C7: when a required input is missing (the task record or
metadata fails to load, the spike file list is empty, or ADD_LFP is set
with an empty LFP file list), convert_data raises AssertionError before
producing any output, and the batch fold does not catch it, so the whole
remaining batch is abandoned whatever sessions follow. -/
theorem convert_data_missing_input_aborts (settings : Settings) (sid : SessionId)
    (files : SessionFiles)
    (h : files.task_obj = none ∨ files.metadata_ok = false ∨ files.spike_files = [] ∨
         (settings.ADD_LFP = true ∧ files.lfp_files = [])) :
    convert_data sid files settings = Except.error "AssertionError" ∧
    ∀ rest : List (SessionId × SessionFiles),
      run_batch settings ((sid, files) :: rest) = Except.error "AssertionError" := by
  have hc : convert_data sid files settings = Except.error "AssertionError" := by
    unfold convert_data
    cases h2 : files.task_obj with
    | none => rfl
    | some t =>
        rcases h with h | h | h | h
        · rw [h2] at h; exact absurd h (by simp)
        all_goals split_ifs <;> simp_all
  refine ⟨hc, fun rest => ?_⟩
  unfold run_batch
  rw [List.foldlM_cons]
  show Except.bind (Except.map _ (convert_data sid files settings)) _ = _
  rw [hc]
  rfl

/-- Witness for C7: a session whose task record failed to load. -/
theorem convert_data_missing_input_aborts_witness :
    ((⟨none, true, [], []⟩ : SessionFiles).task_obj = none ∨
     (⟨none, true, [], []⟩ : SessionFiles).metadata_ok = false ∨
     (⟨none, true, [], []⟩ : SessionFiles).spike_files = [] ∨
     (({} : Settings).ADD_LFP = true ∧ (⟨none, true, [], []⟩ : SessionFiles).lfp_files = [])) ∧
    convert_data ⟨[], [], []⟩ ⟨none, true, [], []⟩ {} = Except.error "AssertionError" ∧
    ∀ rest : List (SessionId × SessionFiles),
      run_batch {} ((⟨[], [], []⟩, ⟨none, true, [], []⟩) :: rest) =
        Except.error "AssertionError" :=
  ⟨Or.inl rfl, convert_data_missing_input_aborts {} ⟨[], [], []⟩ ⟨none, true, [], []⟩ (Or.inl rfl)⟩

/-- Membership in a conditional empty list. -/
theorem mem_if_nil {α : Type} (c : Prop) [Decidable c] (L : List α) (a : α) :
    a ∈ (if c then ([] : List α) else L) ↔ ¬c ∧ a ∈ L := by
  by_cases h : c <;> simp [h]

/-- The per-session check passes exactly when the session name avoids the
skip-sessions list and the already-converted check. -/
theorem session_run_check_iff (experiment : List Char)
    (converted skip_sessions : List (List Char)) (skai : Bool)
    (subject session : List Char) :
    session_run_check experiment converted skip_sessions skai subject session = true ↔
      make_session_name subject experiment session ∉ skip_sessions ∧
      ¬(skai = true ∧ make_session_name subject experiment session ++ nwbSuffix ∈ converted) := by
  simp only [session_run_check]
  split_ifs with h1 h2 <;> simp_all

/-- Claim C8: the batch orchestrator invokes the prepare plus convert
pipeline for exactly the enumerated (subject, session) pairs whose subject
avoids the skip-subjects list, whose session name avoids the skip-sessions
list, and for which it is not the case that SKIP_ALREADY_RUN is set with
the session output name among the converted files; every other pair
triggers no pipeline call. -/
theorem run_all_conversions_invoked_iff (experiment : List Char)
    (all_sessions : List (List Char × List (List Char)))
    (converted skip_subjects skip_sessions : List (List Char))
    (settings : Settings) (subject session : List Char) :
    (subject, session) ∈ run_all_conversions experiment all_sessions converted
        skip_subjects skip_sessions settings ↔
      (∃ sessions, (subject, sessions) ∈ all_sessions ∧ session ∈ sessions) ∧
      subject ∉ skip_subjects ∧
      make_session_name subject experiment session ∉ skip_sessions ∧
      ¬(settings.SKIP_ALREADY_RUN = true ∧
        make_session_name subject experiment session ++ nwbSuffix ∈ converted) := by
  unfold run_all_conversions
  rw [List.mem_flatMap]
  constructor
  · rintro ⟨⟨subj, sessions⟩, hp, hmem⟩
    rw [mem_if_nil] at hmem
    obtain ⟨hskip, hmem⟩ := hmem
    rw [List.mem_map] at hmem
    obtain ⟨s, hs, heq⟩ := hmem
    rw [List.mem_filter] at hs
    obtain ⟨hsmem, hcheck⟩ := hs
    obtain ⟨rfl, rfl⟩ : subj = subject ∧ s = session := by
      simpa [Prod.ext_iff] using heq
    rw [session_run_check_iff] at hcheck
    exact ⟨⟨sessions, hp, hsmem⟩, hskip, hcheck.1, hcheck.2⟩
  · rintro ⟨⟨sessions, hss, hsess⟩, h1, h2, h3⟩
    refine ⟨(subject, sessions), hss, ?_⟩
    rw [mem_if_nil]
    refine ⟨h1, ?_⟩
    rw [List.mem_map]
    exact ⟨session,
      List.mem_filter.mpr ⟨hsess,
        (session_run_check_iff experiment converted skip_sessions
          settings.SKIP_ALREADY_RUN subject session).mpr ⟨h2, h3⟩⟩, rfl⟩

/-- Claim C9: every call of process_session raises before returning: its
first statement reads the local variable task before any assignment
(Python treats task as local because of the later assignment), raising
UnboundLocalError, so no argument combination can produce a task record;
the calls further down the body, which use the undefined names file_path
and verbose, are never reached. -/
theorem process_session_always_raises (file_path_log : List Char) (process : Bool) :
    process_session file_path_log process =
      Except.error "UnboundLocalError: local variable task referenced before assignment" ∧
    ∀ t : TaskRecord, process_session file_path_log process ≠ Except.ok t :=
  ⟨rfl, fun _ h => Except.noConfusion h⟩

/-- Claim C10: both parsers tokenize a line by removing carriage returns
and then discarding the final character before splitting on tabs (the
shared tokenize function, by definition); hence for a last line without a
trailing newline the tokens are the true tab-separated fields except that
the last field loses its final character. -/
theorem tokenize_drops_final_char (line : List Char) (h1 : line ≠ [])
    (h2 : '\r' ∉ line) (h3 : line.getLast? ≠ some '\t') :
    ∃ fields lastf, splitTab line = fields ++ [lastf] ∧ lastf ≠ [] ∧
      tokenize line = fields ++ [lastf.dropLast] := by
  obtain h0 | ⟨L, c, hline⟩ := List.eq_nil_or_concat line
  · exact absurd h0 h1
  rw [List.concat_eq_append] at hline
  subst hline
  have hc : c ≠ '\t' := by
    intro hct
    subst hct
    exact h3 (List.getLast?_concat L)
  obtain ⟨S, f, hS1, hS2⟩ := splitTab_append_singleton L c hc
  have hfilter : (L ++ [c]).filter (fun x => x != '\r') = L ++ [c] := by
    rw [List.filter_eq_self]
    intro a ha
    have hne : a ≠ '\r' := by rintro rfl; exact h2 ha
    simp [hne]
  refine ⟨S, f ++ [c], hS2, by simp, ?_⟩
  unfold tokenize
  rw [hfilter, List.dropLast_concat, hS1, List.dropLast_concat]

/-- Witness for C10 on a newline-free line with two fields. -/
theorem tokenize_drops_final_char_witness :
    ("12\tab".toList ≠ [] ∧ '\r' ∉ "12\tab".toList ∧
     "12\tab".toList.getLast? ≠ some '\t') ∧
    ∃ fields lastf, splitTab "12\tab".toList = fields ++ [lastf] ∧ lastf ≠ [] ∧
      tokenize "12\tab".toList = fields ++ [lastf.dropLast] :=
  ⟨⟨by decide, by decide, by decide⟩,
   tokenize_drops_final_char "12\tab".toList (by decide) (by decide) (by decide)⟩
